import Mathlib

/-!
Shallow embedding of the task CRUD backend
(`src/utils/constants.js`, `src/middlewares/validateTask.js`,
`src/controllers/tasks.js`, `src/routes/tasks.js`).

Conventions of the embedding:
* JS strings are Lean `String`; instants (JS `Date` values) are `Int`
  milliseconds since the epoch; the local timezone is an explicit offset
  `tz` in milliseconds added to UTC to obtain local wall-clock time.
* A JSON body field that may be absent is an `Option`; for `dueDate`,
  which distinguishes absent / explicit `null` / a date, the type is
  `Option (Option Int)` (`none` = absent, `some none` = null,
  `some (some t)` = a string parsing to instant `t`).  Date-format
  validation of the raw string is not modelled: bodies carry already
  parsed instants.
* The store (`prisma.task`) is a `List TaskRecord`; an unexpected store
  failure is an oracle `fault : Bool` threaded into each mutation.
* The JS objects `STATUS`, `PRIORITY`, `DATE_FILTERS` each hold three or
  four string values plus an `_ALL` array value, so `Object.values`
  returns a heterogeneous list of strings and one string array; this is
  modelled by `EnumVal`.
-/

/-- Model of a JS value occurring in `Object.values(STATUS)` and friends:
either a string member or the `_ALL` helper array. -/
inductive EnumVal where
  | s (v : String)
  | list (vs : List String)
deriving DecidableEq, Repr

/-- Model of `Array.prototype.includes` applied to a string argument:
strict equality never identifies a string with an array. -/
def jsIncludes (vals : List EnumVal) (x : String) : Bool :=
  vals.any fun v =>
    match v with
    | .s w => w == x
    | .list _ => false

/-- Model of JS `String()` conversion of such a value: an array converts
to its elements joined with a bare comma. -/
def EnumVal.toJsString : EnumVal → String
  | .s v => v
  | .list vs => String.intercalate "," vs

/-- Model of `Array.prototype.join(sep)`: each element converted with
`String()` and joined with the separator. -/
def jsJoin (vals : List EnumVal) (sep : String) : String :=
  String.intercalate sep (vals.map EnumVal.toJsString)

/-- Embedding of `Object.values(STATUS)` from `src/utils/constants.js`
(lines 19-24): the three members followed by the `_ALL` array. -/
def STATUS_values : List EnumVal :=
  [.s "TODO", .s "IN_PROGRESS", .s "DONE",
   .list ["TODO", "IN_PROGRESS", "DONE"]]

/-- Embedding of `Object.values(PRIORITY)` (constants.js lines 29-34). -/
def PRIORITY_values : List EnumVal :=
  [.s "low", .s "medium", .s "high", .list ["low", "medium", "high"]]

/-- Embedding of `Object.values(DATE_FILTERS)` (constants.js lines 40-46). -/
def DATE_FILTERS_values : List EnumVal :=
  [.s "today", .s "week", .s "month", .s "overdue",
   .list ["today", "week", "month", "overdue"]]

/-- Character class trimmed by JS `String.prototype.trim`, modelled by
the Lean whitespace class. -/
def wsChar (c : Char) : Bool := c.isWhitespace

/-- List-level trimming: drop leading and trailing whitespace. -/
def trimChars (l : List Char) : List Char :=
  ((l.dropWhile wsChar).reverse.dropWhile wsChar).reverse

/-- Model of `String.prototype.trim`. -/
def jsTrim (s : String) : String := ⟨trimChars s.data⟩

/-- A string is blank when it is empty or consists only of whitespace. -/
def blank (s : String) : Bool := s.data.all wsChar

theorem dropWhile_head_false {p : Char → Bool} {l t : List Char} {a : Char}
    (h : l.dropWhile p = a :: t) : p a = false := by
  induction l with
  | nil => simp [List.dropWhile] at h
  | cons b bs ih =>
    rw [List.dropWhile] at h
    by_cases hb : p b
    · simp only [hb] at h
      exact ih h
    · rw [Bool.not_eq_true] at hb
      simp only [hb] at h
      injection h with h1 h2
      exact h1 ▸ hb

set_option linter.unnecessarySimpa false in
theorem dropWhile_eq_nil_iff_all {p : Char → Bool} {l : List Char} :
    l.dropWhile p = [] ↔ l.all p := by
  induction l with
  | nil => simp
  | cons b bs ih =>
    by_cases hb : p b
    · simpa [List.dropWhile, hb] using ih
    · simp [List.dropWhile, hb]

theorem trimChars_eq_nil_iff {l : List Char} :
    trimChars l = [] ↔ l.all wsChar := by
  unfold trimChars
  rw [List.reverse_eq_nil_iff, dropWhile_eq_nil_iff_all]
  constructor
  · intro h
    have hall : ∀ x ∈ l.dropWhile wsChar, wsChar x := by
      intro x hx
      exact (List.all_eq_true.mp (by simpa using h)) x (by simpa using hx)
    rw [List.all_eq_true]
    intro x hx
    rcases List.mem_append.mp
        ((List.takeWhile_append_dropWhile (p := wsChar) (l := l)) ▸ hx) with
      hx1 | hx2
    · exact List.mem_takeWhile_imp hx1
    · exact hall x hx2
  · intro h
    rw [List.all_eq_true]
    intro x hx
    have hx' : x ∈ l := (List.dropWhile_sublist wsChar).subset (by simpa using hx)
    exact List.all_eq_true.mp h x hx'

/-- The string produced by `jsTrim` is empty exactly when the input is
blank (empty or all-whitespace). -/
theorem jsTrim_eq_empty_iff (s : String) : jsTrim s = "" ↔ blank s = true := by
  unfold jsTrim blank
  constructor
  · intro h
    exact trimChars_eq_nil_iff.mp (congrArg String.data h)
  · intro h
    have : trimChars s.data = [] := trimChars_eq_nil_iff.mpr h
    exact congrArg String.mk this

/-- A nonempty trimmed string is never blank. -/
theorem not_blank_of_jsTrim_ne_empty {s : String} (h : jsTrim s ≠ "") :
    blank (jsTrim s) = false := by
  have hne : trimChars s.data ≠ [] := by
    intro hnil
    exact h (congrArg String.mk hnil)
  show (trimChars s.data).all wsChar = false
  unfold trimChars at hne ⊢
  rcases hd : (s.data.dropWhile wsChar).reverse.dropWhile wsChar with _ | ⟨a, t⟩
  · rw [hd] at hne
    simp at hne
  · have ha : wsChar a = false := dropWhile_head_false hd
    rw [Bool.eq_false_iff]
    intro hall
    have := List.all_eq_true.mp hall a (by simp)
    rw [ha] at this
    exact Bool.false_ne_true this

/-- Persisted task, embedding the prisma model `Task` (the name
`TaskRecord` avoids the Lean core `Task` type); `updatedAt` is maintained
by the store and never read by a handler, so it is omitted. -/
structure TaskRecord where
  id : String
  title : String
  status : String
  priority : String
  dueDate : Option Int
  createdAt : Int
deriving DecidableEq, Repr

/-- Raw JSON request body for create and update.  Fields may be absent;
`dueDate` distinguishes absent, explicit null, and a parsed instant. -/
structure Body where
  title : Option String := none
  status : Option String := none
  priority : Option String := none
  dueDate : Option (Option Int) := none
deriving DecidableEq, Repr

/-- Shape of the `validOptions` member of an error response: either a
single enumeration listing or the object with `status` and `priority`
listings used by the create-title rejection. -/
inductive ValidOpts where
  | enum (vals : List EnumVal)
  | statusPriority (status priority : List EnumVal)
deriving DecidableEq, Repr

/-- Structured JSON error response together with its HTTP status code:
`{success: false, error, field?, validOptions?, receivedValue?}`. -/
structure ErrResp where
  status : Nat
  error : String
  field : Option String := none
  validOptions : Option ValidOpts := none
  receivedValue : Option String := none
deriving DecidableEq, Repr

/-- Payload produced by the validation middleware (`req.validatedTaskData`). -/
structure ValidatedData where
  title : String
  status : Option String
  priority : Option String
  dueDate : Option (Option Int)
deriving DecidableEq, Repr

/-- Embedding of the `validateTask` middleware
(`src/middlewares/validateTask.js`, first variant).  JS truthiness makes
an absent title and the empty string take the same rejection; a present
but empty `status`/`priority` is skipped by its `if (status)` guard and
omitted from the validated payload.  The non-string `typeof` rejections
are unrepresentable in the typed model, and the `dueDate` format check
always passes because bodies carry already parsed instants. -/
def validateTask (b : Body) : Except ErrResp ValidatedData :=
  match b.title with
  | none =>
      .error ⟨400, "Title is required and must be a non-empty string",
              some "title", none, none⟩
  | some t =>
      if jsTrim t = "" then
        .error ⟨400, "Title is required and must be a non-empty string",
                some "title", none, none⟩
      else
        match b.status with
        | some s =>
            if s ≠ "" ∧ jsIncludes STATUS_values s = false then
              .error ⟨400, "Invalid status. Valid options are case-sensitive: "
                        ++ jsJoin STATUS_values ", ",
                      some "status", some (.enum STATUS_values), some s⟩
            else
              match b.priority with
              | some p =>
                  if p ≠ "" ∧ jsIncludes PRIORITY_values p = false then
                    .error ⟨400,
                            "Invalid priority. Valid options are case-sensitive: "
                              ++ jsJoin PRIORITY_values ", ",
                            some "priority", some (.enum PRIORITY_values), some p⟩
                  else
                    .ok ⟨jsTrim t,
                         if s = "" then none else some s,
                         if p = "" then none else some p,
                         b.dueDate⟩
              | none =>
                  .ok ⟨jsTrim t, if s = "" then none else some s, none, b.dueDate⟩
        | none =>
            match b.priority with
            | some p =>
                if p ≠ "" ∧ jsIncludes PRIORITY_values p = false then
                  .error ⟨400,
                          "Invalid priority. Valid options are case-sensitive: "
                            ++ jsJoin PRIORITY_values ", ",
                          some "priority", some (.enum PRIORITY_values), some p⟩
                else
                  .ok ⟨jsTrim t, none, if p = "" then none else some p, b.dueDate⟩
            | none =>
                .ok ⟨jsTrim t, none, none, b.dueDate⟩

/-- Embedding of `createTask` (`src/controllers/tasks.js` lines 13-65).
Destructuring defaults apply to absent fields, the later `status ||
STATUS.TODO` fallback covers a present-but-empty string, and an
unexpected store failure is answered with HTTP 400 `Failed to create
task`.  Returns the response together with the resulting store. -/
def createTask (fault : Bool) (store : List TaskRecord) (newId : String)
    (now : Int) (b : Body) : Except ErrResp TaskRecord × List TaskRecord :=
  let status := b.status.getD "TODO"
  let priority := b.priority.getD "medium"
  match b.title with
  | none =>
      (.error ⟨400, "Valid title is required", none,
               some (.statusPriority STATUS_values PRIORITY_values), none⟩, store)
  | some t =>
      if jsTrim t = "" then
        (.error ⟨400, "Valid title is required", none,
                 some (.statusPriority STATUS_values PRIORITY_values), none⟩, store)
      else if status ≠ "" ∧ jsIncludes STATUS_values status = false then
        (.error ⟨400, "Invalid status. Valid options: " ++ jsJoin STATUS_values ", ",
                 none, some (.enum STATUS_values), none⟩, store)
      else if priority ≠ "" ∧ jsIncludes PRIORITY_values priority = false then
        (.error ⟨400, "Invalid priority. Valid options: " ++ jsJoin PRIORITY_values ", ",
                 none, some (.enum PRIORITY_values), none⟩, store)
      else if fault then
        (.error ⟨400, "Failed to create task", none, none, none⟩, store)
      else
        let task : TaskRecord :=
          ⟨newId, jsTrim t,
           if status = "" then "TODO" else status,
           if priority = "" then "medium" else priority,
           b.dueDate.join, now⟩
        (.ok task, store ++ [task])

/-- Store step shared by `updateTask`: an unexpected store failure
answers HTTP 400 `Failed to update task`, a missing record (prisma error
P2025) answers 404, otherwise each spread `...(field && {...})` of the
`data` object applies a field only when it is present and truthy, and
`dueDate` only when it is not undefined. -/
def updateTaskStore (fault : Bool) (store : List TaskRecord) (id : String)
    (b : Body) : Except ErrResp TaskRecord × List TaskRecord :=
  if fault then
    (.error ⟨400, "Failed to update task", none, none, none⟩, store)
  else
    match store.find? (fun t => t.id == id) with
    | none => (.error ⟨404, "Task not found", none, none, none⟩, store)
    | some t0 =>
        let t1 : TaskRecord :=
          { t0 with
            title := match b.title with
                     | some s => if s = "" then t0.title else jsTrim s
                     | none => t0.title
            status := match b.status with
                      | some s => if s = "" then t0.status else s
                      | none => t0.status
            priority := match b.priority with
                        | some p => if p = "" then t0.priority else p
                        | none => t0.priority
            dueDate := match b.dueDate with
                       | some d => d
                       | none => t0.dueDate }
        (.ok t1, store.map fun u => if u.id == id then t1 else u)

/-- Priority validation step of `updateTask`. -/
def updateTaskPrio (fault : Bool) (store : List TaskRecord) (id : String)
    (b : Body) : Except ErrResp TaskRecord × List TaskRecord :=
  match b.priority with
  | some p =>
      if p ≠ "" ∧ jsIncludes PRIORITY_values p = false then
        (.error ⟨400, "Invalid priority. Valid options: " ++ jsJoin PRIORITY_values ", ",
                 none, some (.enum PRIORITY_values), none⟩, store)
      else updateTaskStore fault store id b
  | none => updateTaskStore fault store id b

/-- Embedding of `updateTask` (`src/controllers/tasks.js` lines 188-247).
Reads the raw body; validates the id, then a truthy `status` and a truthy
`priority` against their enumerations, then runs the store update. -/
def updateTask (fault : Bool) (store : List TaskRecord) (id : String)
    (b : Body) : Except ErrResp TaskRecord × List TaskRecord :=
  if id = "" then
    (.error ⟨400, "Invalid task ID", none, none, none⟩, store)
  else
    match b.status with
    | some s =>
        if s ≠ "" ∧ jsIncludes STATUS_values s = false then
          (.error ⟨400, "Invalid status. Valid options: " ++ jsJoin STATUS_values ", ",
                   none, some (.enum STATUS_values), none⟩, store)
        else updateTaskPrio fault store id b
    | none => updateTaskPrio fault store id b

/-- Embedding of `deleteTask` (`src/controllers/tasks.js` lines 255-283).
A missing record answers 404; any other store failure answers HTTP 500
`Failed to delete task`; success answers 204 with no body (`Unit`). -/
def deleteTask (fault : Bool) (store : List TaskRecord) (id : String) :
    Except ErrResp Unit × List TaskRecord :=
  if id = "" then
    (.error ⟨400, "Invalid task ID", none, none, none⟩, store)
  else if fault then
    (.error ⟨500, "Failed to delete task", none, none, none⟩, store)
  else
    match store.find? (fun t => t.id == id) with
    | none => (.error ⟨404, "Task not found", none, none, none⟩, store)
    | some _ => (.ok (), store.filter fun t => !(t.id == id))

/-- Route `POST /tasks` (`src/routes/tasks.js` line 129): the
`validateTask` middleware runs before `createTask`, which still reads
the raw body. -/
def postRoute (fault : Bool) (store : List TaskRecord) (newId : String)
    (now : Int) (b : Body) : Except ErrResp TaskRecord × List TaskRecord :=
  match validateTask b with
  | .error e => (.error e, store)
  | .ok _ => createTask fault store newId now b

/-- Route `PATCH /tasks/:id` (`src/routes/tasks.js` line 166): the
`validateTask` middleware runs before `updateTask`, so every update
request must carry a valid non-empty title. -/
def patchRoute (fault : Bool) (store : List TaskRecord) (id : String)
    (b : Body) : Except ErrResp TaskRecord × List TaskRecord :=
  match validateTask b with
  | .error e => (.error e, store)
  | .ok _ => updateTask fault store id b

/-- Route `DELETE /tasks/:id` (`src/routes/tasks.js` line 192): no body
validation middleware. -/
def deleteRoute (fault : Bool) (store : List TaskRecord) (id : String) :
    Except ErrResp Unit × List TaskRecord :=
  deleteTask fault store id

/-- Milliseconds in a day. -/
def dayMs : Int := 86400000

/-- Instant of `setHours(0, 0, 0, 0)` applied to `now`: midnight of the
local calendar day, where `tz` is the offset added to UTC milliseconds to
obtain local wall-clock milliseconds. -/
def startOfDayMs (now tz : Int) : Int :=
  ((now + tz).fdiv dayMs) * dayMs - tz

/-- Day of week of the local calendar day of `now` as returned by JS
`getDay` (0 = Sunday); January 1 1970 was a Thursday (4). -/
def jsGetDay (now tz : Int) : Int :=
  ((now + tz).fdiv dayMs + 4) % 7

/-- Instant of the start of the local week (Sunday 00:00:00.000)
containing `now`, as computed by the `week` branch of `getTasks`. -/
def startOfWeekMs (now tz : Int) : Int :=
  startOfDayMs now tz - jsGetDay now tz * dayMs

/-- The `where.dueDate` constraint assembled by `getTasks`: absent, an
inclusive `{gte, lte}` range, or a strict `{lt}` upper bound. -/
inductive DueFilter where
  | unconstrained
  | between (gte lte : Int)
  | lt (bound : Int)
deriving DecidableEq, Repr

/-- The prisma `where` object assembled by `getTasks`. -/
structure Where where
  status : Option String
  priority : Option String
  dueDate : DueFilter
deriving DecidableEq, Repr

/-- Semantics of the `where.dueDate` constraint on a stored `dueDate`
column: a null due date never matches a range or bound (prisma comparison
filters exclude NULL). -/
def dueMatches (f : DueFilter) (d : Option Int) : Bool :=
  match f with
  | .unconstrained => true
  | .between a b =>
      match d with
      | none => false
      | some x => decide (a ≤ x) && decide (x ≤ b)
  | .lt bound =>
      match d with
      | none => false
      | some x => decide (x < bound)

/-- Semantics of the assembled `where` object: the conjunction of the
status equality, the priority equality and the due-date constraint, each
imposing nothing when absent. -/
def matchesWhere (w : Where) (t : TaskRecord) : Bool :=
  (match w.status with
   | none => true
   | some s => t.status == s) &&
  (match w.priority with
   | none => true
   | some p => t.priority == p) &&
  dueMatches w.dueDate t.dueDate

/-- Query-string parameters of `GET /tasks`.  `page` and `limit` carry
the `parseInt` result of a supplied parameter (`none` = absent, taking
the destructuring default); a parameter failing `parseInt` is covered by
the same rejection as an out-of-range one and is not represented. -/
structure Query where
  status : Option String := none
  priority : Option String := none
  dateFilter : Option String := none
  page : Option Int := none
  limit : Option Int := none
deriving DecidableEq, Repr

/-- Pagination metadata of a successful list response. -/
structure Pagination where
  total : Nat
  page : Int
  limit : Int
  totalPages : Nat
deriving DecidableEq, Repr

/-- Model of `Math.ceil(total / limit)` for natural `total` and positive
natural `limit`. -/
def jsCeilDiv (total limit : Nat) : Nat := (total + limit - 1) / limit

/-- Status filter step of `getTasks` (lines 94-103): a truthy parameter
is validated against `Object.values(STATUS)` and becomes `where.status`. -/
def statusWhere (q : Query) : Except ErrResp (Option String) :=
  match q.status with
  | none => .ok none
  | some s =>
      if s = "" then .ok none
      else if jsIncludes STATUS_values s then .ok (some s)
      else .error ⟨400, "Invalid status. Valid options: " ++ jsJoin STATUS_values ", ",
                   none, some (.enum STATUS_values), none⟩

/-- Priority filter step of `getTasks` (lines 106-115). -/
def priorityWhere (q : Query) : Except ErrResp (Option String) :=
  match q.priority with
  | none => .ok none
  | some p =>
      if p = "" then .ok none
      else if jsIncludes PRIORITY_values p then .ok (some p)
      else .error ⟨400, "Invalid priority. Valid options: " ++ jsJoin PRIORITY_values ", ",
                   none, some (.enum PRIORITY_values), none⟩

/-- Date filter step of `getTasks` (lines 118-148): a truthy parameter is
validated against `Object.values(DATE_FILTERS)`, then the `switch`
resolves `today`, `overdue` and `week`; `month` has no case and leaves
`where.dueDate` unset. -/
def dateWhere (q : Query) (now tz : Int) : Except ErrResp DueFilter :=
  match q.dateFilter with
  | none => .ok .unconstrained
  | some f =>
      if f = "" then .ok .unconstrained
      else if jsIncludes DATE_FILTERS_values f then
        if f = "today" then
          .ok (.between (startOfDayMs now tz) (startOfDayMs now tz + dayMs - 1))
        else if f = "overdue" then
          .ok (.lt now)
        else if f = "week" then
          .ok (.between (startOfWeekMs now tz) (startOfWeekMs now tz + 7 * dayMs - 1))
        else
          .ok .unconstrained
      else
        .error ⟨400, "Invalid date filter. Valid options: " ++ jsJoin DATE_FILTERS_values ", ",
                none, some (.enum DATE_FILTERS_values), none⟩

/-- Assembly of the `where` object in source order: status, priority,
date filter, first rejection wins. -/
def buildWhere (q : Query) (now tz : Int) : Except ErrResp Where :=
  match statusWhere q with
  | .error e => .error e
  | .ok ws =>
      match priorityWhere q with
      | .error e => .error e
      | .ok wp =>
          match dateWhere q now tz with
          | .error e => .error e
          | .ok wd => .ok ⟨ws, wp, wd⟩

/-- Ordering used by the list query: `dueDate` ascending with NULL rows
first per the SQLite convention, `createdAt` descending as tie-break. -/
def taskLE (a b : TaskRecord) : Bool :=
  match a.dueDate, b.dueDate with
  | none, none => decide (b.createdAt ≤ a.createdAt)
  | none, some _ => true
  | some _, none => false
  | some x, some y => decide (x < y) || (decide (x = y) && decide (b.createdAt ≤ a.createdAt))

/-- Insertion step of the sort. -/
def insertTask (a : TaskRecord) : List TaskRecord → List TaskRecord
  | [] => [a]
  | b :: bs => if taskLE a b then a :: b :: bs else b :: insertTask a bs

/-- Insertion sort realising the `orderBy` clause. -/
def sortTasks : List TaskRecord → List TaskRecord
  | [] => []
  | a :: rest => insertTask a (sortTasks rest)

/-- Tasks of the store matching the assembled `where` object: the set
read by `findMany` and counted by `count`, both observing the same
predicate. -/
def matchingTasks (store : List TaskRecord) (w : Where) : List TaskRecord :=
  store.filter fun t => matchesWhere w t

/-- Page read by `findMany`: the ordered matching tasks after
`skip (page-1)*limit` and `take limit`. -/
def findManyPage (store : List TaskRecord) (w : Where) (page limit : Int) :
    List TaskRecord :=
  ((sortTasks (matchingTasks store w)).drop ((page - 1).toNat * limit.toNat)).take
    limit.toNat

/-- Embedding of `getTasks` (`src/controllers/tasks.js` lines 77-179):
validate pagination, build the conjunctive `where`, then answer with the
page of matching tasks and the pagination metadata computed from the
count of all matching tasks.  The two `new Date()` calls of one request
are modelled as the single instant `now`. -/
def getTasks (store : List TaskRecord) (q : Query) (now tz : Int) :
    Except ErrResp (List TaskRecord × Pagination) :=
  if q.page.getD 1 < 1 ∨ q.limit.getD 10 < 1 then
    .error ⟨400, "Invalid pagination parameters", none, none, none⟩
  else
    match buildWhere q now tz with
    | .error e => .error e
    | .ok w =>
        .ok (findManyPage store w (q.page.getD 1) (q.limit.getD 10),
             ⟨(matchingTasks store w).length, q.page.getD 1, q.limit.getD 10,
              jsCeilDiv (matchingTasks store w).length (q.limit.getD 10).toNat⟩)

theorem mem_insertTask {x a : TaskRecord} {l : List TaskRecord} :
    x ∈ insertTask a l ↔ x = a ∨ x ∈ l := by
  induction l with
  | nil => simp [insertTask]
  | cons b bs ih =>
    unfold insertTask
    by_cases h : taskLE a b
    · rw [if_pos h]
      simp
    · rw [if_neg h]
      simp only [List.mem_cons, ih]
      tauto

theorem mem_sortTasks {x : TaskRecord} {l : List TaskRecord} :
    x ∈ sortTasks l ↔ x ∈ l := by
  induction l with
  | nil => simp [sortTasks]
  | cons b bs ih => simp [sortTasks, mem_insertTask, ih]

theorem buildWhere_parts {q : Query} {now tz : Int} {w : Where}
    (h : buildWhere q now tz = .ok w) :
    statusWhere q = .ok w.status ∧ priorityWhere q = .ok w.priority ∧
      dateWhere q now tz = .ok w.dueDate := by
  unfold buildWhere at h
  cases hs : statusWhere q with
  | error e => rw [hs] at h; exact absurd h (by simp)
  | ok ws =>
    rw [hs] at h
    cases hp : priorityWhere q with
    | error e => rw [hp] at h; exact absurd h (by simp)
    | ok wp =>
      rw [hp] at h
      cases hd : dateWhere q now tz with
      | error e => rw [hd] at h; exact absurd h (by simp)
      | ok wd =>
        rw [hd] at h
        simp only [Except.ok.injEq] at h
        subst h
        exact ⟨rfl, rfl, rfl⟩

theorem getTasks_ok_inv {store : List TaskRecord} {q : Query} {now tz : Int}
    {w : Where} {data : List TaskRecord} {pg : Pagination}
    (hbw : buildWhere q now tz = .ok w)
    (h : getTasks store q now tz = .ok (data, pg)) :
    ¬(q.page.getD 1 < 1 ∨ q.limit.getD 10 < 1) ∧
      data = findManyPage store w (q.page.getD 1) (q.limit.getD 10) ∧
      pg = ⟨(matchingTasks store w).length, q.page.getD 1, q.limit.getD 10,
            jsCeilDiv (matchingTasks store w).length (q.limit.getD 10).toNat⟩ := by
  unfold getTasks at h
  by_cases hc : q.page.getD 1 < 1 ∨ q.limit.getD 10 < 1
  · rw [if_pos hc] at h
    exact absurd h (by simp)
  · rw [if_neg hc, hbw] at h
    simp only [Except.ok.injEq, Prod.mk.injEq] at h
    exact ⟨hc, h.1.symm, h.2.symm⟩

theorem validateTask_inv {b : Body} {d : ValidatedData}
    (h : validateTask b = .ok d) :
    ∃ t, b.title = some t ∧ jsTrim t ≠ "" ∧
      (∀ s, b.status = some s → s ≠ "" → jsIncludes STATUS_values s = true) ∧
      (∀ p, b.priority = some p → p ≠ "" → jsIncludes PRIORITY_values p = true) := by
  obtain ⟨bt, bst, bpr, bdd⟩ := b
  cases bt with
  | none => simp [validateTask] at h
  | some t =>
    simp only [validateTask] at h
    by_cases h1 : jsTrim t = ""
    · rw [if_pos h1] at h
      exact absurd h (by simp)
    · rw [if_neg h1] at h
      cases bst with
      | none =>
        dsimp only at h
        cases bpr with
        | none => exact ⟨t, rfl, h1, by simp, by simp⟩
        | some p =>
          dsimp only at h
          by_cases h3 : p ≠ "" ∧ jsIncludes PRIORITY_values p = false
          · rw [if_pos h3] at h
            exact absurd h (by simp)
          · refine ⟨t, rfl, h1, by simp, ?_⟩
            intro p2 hp2 hpne
            injection hp2 with hpp
            subst hpp
            push_neg at h3
            rcases Bool.eq_false_or_eq_true (jsIncludes PRIORITY_values p) with htt | hf
            · exact htt
            · exact absurd hf (h3 hpne)
      | some s =>
        dsimp only at h
        by_cases h2 : s ≠ "" ∧ jsIncludes STATUS_values s = false
        · rw [if_pos h2] at h
          exact absurd h (by simp)
        · rw [if_neg h2] at h
          have hstat : ∀ s2, some s = some s2 → s2 ≠ "" →
              jsIncludes STATUS_values s2 = true := by
            intro s2 hs2 hsne
            injection hs2 with hss
            subst hss
            push_neg at h2
            rcases Bool.eq_false_or_eq_true (jsIncludes STATUS_values s) with htt | hf
            · exact htt
            · exact absurd hf (h2 hsne)
          cases bpr with
          | none => exact ⟨t, rfl, h1, hstat, by simp⟩
          | some p =>
            dsimp only at h
            by_cases h3 : p ≠ "" ∧ jsIncludes PRIORITY_values p = false
            · rw [if_pos h3] at h
              exact absurd h (by simp)
            · refine ⟨t, rfl, h1, hstat, ?_⟩
              intro p2 hp2 hpne
              injection hp2 with hpp
              subst hpp
              push_neg at h3
              rcases Bool.eq_false_or_eq_true (jsIncludes PRIORITY_values p) with htt | hf
              · exact htt
              · exact absurd hf (h3 hpne)

/-- Sample task used by concrete scenarios. -/
def reportTask : TaskRecord := ⟨"t1", "Write report", "TODO", "medium", none, 0⟩

/-- C1: a PATCH request supplying only `status` on an existing task is
rejected with the title-field 400 of the `validateTask` middleware, which
the route applies before `updateTask`, and the store is unchanged; the
`updateTask` controller alone would have applied only the supplied
`status` and kept `title`, `priority` and `dueDate`. -/
theorem claim_patch_status_only_rejected :
    [reportTask].find? (fun t => t.id == "t1") = some reportTask ∧
    patchRoute false [reportTask] "t1" { status := some "IN_PROGRESS" } =
      (.error ⟨400, "Title is required and must be a non-empty string",
               some "title", none, none⟩,
       [reportTask]) ∧
    updateTask false [reportTask] "t1" { status := some "IN_PROGRESS" } =
      (.ok { reportTask with status := "IN_PROGRESS" },
       [{ reportTask with status := "IN_PROGRESS" }]) :=
  ⟨rfl, rfl, rfl⟩

/-- C2: a status value outside the enumeration (also a lower-case
variant) is rejected with HTTP 400, but both the message and
`validOptions` list a fourth entry, the `_ALL` helper array, beyond the
three enumeration members. -/
theorem claim_status_error_lists_helper_array :
    getTasks [] { status := some "PENDING" } 0 0 =
      .error ⟨400,
              "Invalid status. Valid options: TODO, IN_PROGRESS, DONE, TODO,IN_PROGRESS,DONE",
              none, some (.enum STATUS_values), none⟩ ∧
    getTasks [] { status := some "done" } 0 0 =
      .error ⟨400,
              "Invalid status. Valid options: TODO, IN_PROGRESS, DONE, TODO,IN_PROGRESS,DONE",
              none, some (.enum STATUS_values), none⟩ ∧
    createTask false [] "id1" 0 { title := some "Task", status := some "PENDING" } =
      (.error ⟨400,
               "Invalid status. Valid options: TODO, IN_PROGRESS, DONE, TODO,IN_PROGRESS,DONE",
               none, some (.enum STATUS_values), none⟩, []) ∧
    STATUS_values ≠ [EnumVal.s "TODO", EnumVal.s "IN_PROGRESS", EnumVal.s "DONE"] :=
  ⟨rfl, rfl, rfl, by decide⟩

/-- C3 counterexample: an unexpected store failure during a valid create
request is answered with HTTP 400, not 500. -/
theorem claim_persistence_create_counterexample :
    postRoute true [] "id1" 0 { title := some "Buy milk" } =
      (.error ⟨400, "Failed to create task", none, none, none⟩, []) ∧
    (400 : Nat) ≠ 500 :=
  ⟨rfl, by decide⟩

/-- C7: the `overdue` date filter resolves to a strict upper bound at the
current instant with no lower bound: a task with a due date matches
exactly when that due date is strictly before `now`. -/
theorem claim_overdue_filter :
    ∀ (q : Query) (now tz : Int) (w : Where), q.dateFilter = some "overdue" →
      buildWhere q now tz = .ok w →
      w.dueDate = .lt now ∧
      ∀ (t : TaskRecord) (d : Int), t.dueDate = some d →
        (dueMatches w.dueDate t.dueDate = true ↔ d < now) := by
  intro q now tz w hqf hbw
  obtain ⟨-, -, hd⟩ := buildWhere_parts hbw
  have hval : dateWhere q now tz = .ok (.lt now) := by
    unfold dateWhere
    rw [hqf]
    rfl
  rw [hval] at hd
  injection hd with hdd
  refine ⟨hdd.symm, ?_⟩
  intro t d htd
  rw [htd, ← hdd]
  simp [dueMatches]

/-- Witness for C7 at a concrete instant: a due date one second in the
past matches the overdue range, one second in the future does not. -/
theorem claim_overdue_filter_witness :
    dueMatches (DueFilter.lt 1000) (some 0) = true ∧
    dueMatches (DueFilter.lt 1000) (some 2000) = false :=
  ⟨((claim_overdue_filter ⟨none, none, some "overdue", none, none⟩ 1000 0
        ⟨none, none, .lt 1000⟩ rfl rfl).2 ⟨"x", "T", "TODO", "low", some 0, 0⟩ 0
      rfl).mpr (by decide),
   by decide⟩

/-- C8: the `today` date filter resolves to the inclusive range from the
local midnight of the current day to 23:59:59.999 of the same day; a task
due exactly at local midnight matches and a task due one second before
local midnight (yesterday 23:59:59) does not. -/
theorem claim_today_filter :
    ∀ (q : Query) (now tz : Int) (w : Where), q.dateFilter = some "today" →
      buildWhere q now tz = .ok w →
      w.dueDate = .between (startOfDayMs now tz) (startOfDayMs now tz + dayMs - 1) ∧
      (∀ (t : TaskRecord) (d : Int), t.dueDate = some d →
        (dueMatches w.dueDate t.dueDate = true ↔
          startOfDayMs now tz ≤ d ∧ d ≤ startOfDayMs now tz + dayMs - 1)) ∧
      dueMatches w.dueDate (some (startOfDayMs now tz)) = true ∧
      dueMatches w.dueDate (some (startOfDayMs now tz - 1000)) = false := by
  intro q now tz w hqf hbw
  obtain ⟨-, -, hd⟩ := buildWhere_parts hbw
  have hval : dateWhere q now tz =
      .ok (.between (startOfDayMs now tz) (startOfDayMs now tz + dayMs - 1)) := by
    unfold dateWhere
    rw [hqf]
    rfl
  rw [hval] at hd
  injection hd with hdd
  refine ⟨hdd.symm, ?_, ?_, ?_⟩
  · intro t d htd
    rw [htd, ← hdd]
    simp [dueMatches]
  · rw [← hdd]
    simp [dueMatches, dayMs]
    omega
  · rw [← hdd]
    simp [dueMatches, dayMs]

/-- Witness for C8 at a concrete instant inside the second local day
after the epoch. -/
theorem claim_today_filter_witness :
    dueMatches (DueFilter.between 86400000 172799999) (some 86400000) = true ∧
    dueMatches (DueFilter.between 86400000 172799999) (some 86398999) = false := by
  refine ⟨(claim_today_filter ⟨none, none, some "today", none, none⟩ 90000000 0
      ⟨none, none, .between 86400000 172799999⟩ rfl rfl).2.2.1, ?_⟩
  have h := (claim_today_filter ⟨none, none, some "today", none, none⟩ 90000000 0
      ⟨none, none, .between 86400000 172799999⟩ rfl rfl).2.1
      ⟨"x", "T", "TODO", "low", some 86398999, 0⟩ 86398999 rfl
  exact Bool.eq_false_iff.mpr fun htrue =>
    (by decide : ¬(startOfDayMs 90000000 0 ≤ 86398999 ∧
        86398999 ≤ startOfDayMs 90000000 0 + dayMs - 1)) (h.mp htrue)

/-- C10: the value `month` passes the date-filter enumeration check, yet
the `switch` has no case for it, so the query behaves exactly as the same
query without any date filter. -/
theorem claim_month_filter :
    jsIncludes DATE_FILTERS_values "month" = true ∧
    ∀ (store : List TaskRecord) (q : Query) (now tz : Int),
      getTasks store { q with dateFilter := some "month" } now tz =
      getTasks store { q with dateFilter := none } now tz := by
  refine ⟨by decide, ?_⟩
  intro store q now tz
  obtain ⟨qs, qp, qf, qpg, ql⟩ := q
  rfl

/-- Sample task matching `status=DONE` and `priority=high`. -/
def demoTask : TaskRecord := ⟨"a1", "Quarterly report", "DONE", "high", none, 0⟩

/-- C4: every task of a successful list response satisfies the assembled
conjunctive `where` (so each supplied filter holds of it, while omitted
filters impose no constraint), and concretely a DONE/high task is
returned under the status filter alone, the priority filter alone and
both together, but not under a different status filter. -/
theorem claim_filter_conjunction :
    (∀ (store : List TaskRecord) (q : Query) (now tz : Int) (w : Where)
       (data : List TaskRecord) (pg : Pagination),
       buildWhere q now tz = .ok w →
       getTasks store q now tz = .ok (data, pg) →
       ∀ t ∈ data, t ∈ store ∧ matchesWhere w t = true ∧
         (∀ s, q.status = some s → s ≠ "" → t.status = s) ∧
         (∀ p, q.priority = some p → p ≠ "" → t.priority = p)) ∧
    getTasks [demoTask] { status := some "DONE" } 0 0 = .ok ([demoTask], ⟨1, 1, 10, 1⟩) ∧
    getTasks [demoTask] { priority := some "high" } 0 0 = .ok ([demoTask], ⟨1, 1, 10, 1⟩) ∧
    getTasks [demoTask] { status := some "DONE", priority := some "high" } 0 0 =
      .ok ([demoTask], ⟨1, 1, 10, 1⟩) ∧
    getTasks [demoTask] { status := some "TODO" } 0 0 = .ok ([], ⟨0, 1, 10, 0⟩) := by
  refine ⟨?_, rfl, rfl, rfl, rfl⟩
  intro store q now tz w data pg hbw hget t ht
  obtain ⟨-, hdata, -⟩ := getTasks_ok_inv hbw hget
  rw [hdata] at ht
  have hmem : t ∈ matchingTasks store w :=
    mem_sortTasks.mp (List.mem_of_mem_drop (List.mem_of_mem_take ht))
  unfold matchingTasks at hmem
  obtain ⟨hstore, hmatch⟩ := List.mem_filter.mp hmem
  obtain ⟨hsw, hpw, -⟩ := buildWhere_parts hbw
  refine ⟨hstore, hmatch, ?_, ?_⟩
  · intro s hqs hsne
    unfold statusWhere at hsw
    rw [hqs] at hsw
    dsimp only at hsw
    rw [if_neg hsne] at hsw
    by_cases hm : jsIncludes STATUS_values s = true
    · rw [if_pos hm] at hsw
      injection hsw with hws
      have hmatch2 := hmatch
      unfold matchesWhere at hmatch2
      rw [← hws] at hmatch2
      simp only [Bool.and_eq_true] at hmatch2
      exact beq_iff_eq.mp hmatch2.1.1
    · rw [if_neg hm] at hsw
      exact absurd hsw (by simp)
  · intro p hqp hpne
    unfold priorityWhere at hpw
    rw [hqp] at hpw
    dsimp only at hpw
    rw [if_neg hpne] at hpw
    by_cases hm : jsIncludes PRIORITY_values p = true
    · rw [if_pos hm] at hpw
      injection hpw with hwp
      have hmatch2 := hmatch
      unfold matchesWhere at hmatch2
      rw [← hwp] at hmatch2
      simp only [Bool.and_eq_true] at hmatch2
      exact beq_iff_eq.mp hmatch2.1.2
    · rw [if_neg hm] at hpw
      exact absurd hpw (by simp)

/-- Witness for C4 at the concrete DONE/high scenario. -/
theorem claim_filter_conjunction_witness :
    demoTask ∈ [demoTask] ∧ demoTask.status = "DONE" ∧ demoTask.priority = "high" := by
  have h := claim_filter_conjunction.1 [demoTask]
      { status := some "DONE", priority := some "high" } 0 0
      ⟨some "DONE", some "high", .unconstrained⟩ [demoTask] ⟨1, 1, 10, 1⟩
      rfl rfl demoTask (by simp)
  exact ⟨h.1, h.2.2.1 "DONE" rfl (by decide), h.2.2.2 "high" rfl (by decide)⟩

/-- C5: a successful page contains at most `limit` tasks and is the
ordered matching sequence after skipping exactly `(page-1)*limit`
records; the reported total counts the tasks matching the same predicate
as the page, `totalPages` is the ceiling of `total / limit` and is zero
when the total is zero; an empty store with page 1, limit 10 yields an
empty page, total 0 and totalPages 0. -/
theorem claim_pagination :
    (∀ (store : List TaskRecord) (q : Query) (now tz : Int) (w : Where)
       (data : List TaskRecord) (pg : Pagination) (p l : Int),
       q.page = some p → q.limit = some l → 1 ≤ p → 1 ≤ l →
       buildWhere q now tz = .ok w →
       getTasks store q now tz = .ok (data, pg) →
       data.length ≤ l.toNat ∧
       data = ((sortTasks (matchingTasks store w)).drop ((p - 1).toNat * l.toNat)).take
         l.toNat ∧
       pg.total = (matchingTasks store w).length ∧
       pg.totalPages = (matchingTasks store w).length ⌈/⌉ l.toNat ∧
       (pg.total = 0 → pg.totalPages = 0)) ∧
    getTasks [] { page := some 1, limit := some 10 } 0 0 = .ok ([], ⟨0, 1, 10, 0⟩) := by
  refine ⟨?_, rfl⟩
  intro store q now tz w data pg p l hp hl hp1 hl1 hbw hget
  obtain ⟨-, hdata, hpg⟩ := getTasks_ok_inv hbw hget
  rw [hp, hl] at hdata hpg
  simp only [Option.getD_some] at hdata hpg
  refine ⟨?_, hdata, ?_, ?_, ?_⟩
  · rw [hdata]
    unfold findManyPage
    rw [List.length_take]
    exact min_le_left _ _
  · rw [hpg]
  · rw [hpg]
    rfl
  · intro h0
    rw [hpg] at h0 ⊢
    dsimp only at h0 ⊢
    rw [h0] at *
    show jsCeilDiv 0 l.toNat = 0
    unfold jsCeilDiv
    have hl2 : 1 ≤ l.toNat := by omega
    exact Nat.div_eq_of_lt (by omega)

/-- Witness for C5 at a one-task store with page 1, limit 10. -/
theorem claim_pagination_witness :
    ([demoTask] : List TaskRecord).length ≤ (10 : Int).toNat := by
  have h := claim_pagination.1 [demoTask] { page := some 1, limit := some 10 } 0 0
      ⟨none, none, .unconstrained⟩ [demoTask] ⟨1, 1, 10, 1⟩ 1 10
      rfl rfl (by decide) (by decide) rfl rfl
  exact h.1

theorem updateTaskStore_fault (store : List TaskRecord) (id : String) (b : Body) :
    updateTaskStore true store id b =
      (.error ⟨400, "Failed to update task", none, none, none⟩, store) := by
  unfold updateTaskStore
  rw [if_pos rfl]

theorem updateTaskStore_notfound {store : List TaskRecord} {id : String} (b : Body)
    (hfind : store.find? (fun t => t.id == id) = none) :
    updateTaskStore false store id b =
      (.error ⟨404, "Task not found", none, none, none⟩, store) := by
  unfold updateTaskStore
  rw [if_neg (by simp), hfind]

theorem updateTaskPrio_valid {b : Body} (fault : Bool) (store : List TaskRecord)
    (id : String)
    (hpr : ∀ p, b.priority = some p → p ≠ "" → jsIncludes PRIORITY_values p = true) :
    updateTaskPrio fault store id b = updateTaskStore fault store id b := by
  unfold updateTaskPrio
  cases hbp : b.priority with
  | none => rfl
  | some p =>
    dsimp only
    have hcond : ¬(p ≠ "" ∧ jsIncludes PRIORITY_values p = false) := by
      rintro ⟨hne, hf⟩
      rw [hpr p hbp hne] at hf
      exact absurd hf (by simp)
    rw [if_neg hcond]

theorem updateTask_valid {b : Body} (fault : Bool) (store : List TaskRecord)
    {id : String} (hid : id ≠ "")
    (hst : ∀ s, b.status = some s → s ≠ "" → jsIncludes STATUS_values s = true) :
    updateTask fault store id b = updateTaskPrio fault store id b := by
  unfold updateTask
  rw [if_neg hid]
  cases hbs : b.status with
  | none => rfl
  | some s =>
    dsimp only
    have hcond : ¬(s ≠ "" ∧ jsIncludes STATUS_values s = false) := by
      rintro ⟨hne, hf⟩
      rw [hst s hbs hne] at hf
      exact absurd hf (by simp)
    rw [if_neg hcond]

theorem createTask_valid_fault {b : Body} (store : List TaskRecord)
    (newId : String) (now : Int) {t : String}
    (hb : b.title = some t) (htne : jsTrim t ≠ "")
    (hst : ∀ s, b.status = some s → s ≠ "" → jsIncludes STATUS_values s = true)
    (hpr : ∀ p, b.priority = some p → p ≠ "" → jsIncludes PRIORITY_values p = true) :
    createTask true store newId now b =
      (.error ⟨400, "Failed to create task", none, none, none⟩, store) := by
  unfold createTask
  rw [hb]
  dsimp only
  rw [if_neg htne]
  have hcond1 : ¬(b.status.getD "TODO" ≠ "" ∧
      jsIncludes STATUS_values (b.status.getD "TODO") = false) := by
    rintro ⟨hne, hf⟩
    cases hbs : b.status with
    | none =>
      rw [hbs] at hf
      exact absurd hf (by decide)
    | some s =>
      rw [hbs] at hf hne
      simp only [Option.getD_some] at hf hne
      rw [hst s hbs hne] at hf
      exact absurd hf (by simp)
  rw [if_neg hcond1]
  have hcond2 : ¬(b.priority.getD "medium" ≠ "" ∧
      jsIncludes PRIORITY_values (b.priority.getD "medium") = false) := by
    rintro ⟨hne, hf⟩
    cases hbp : b.priority with
    | none =>
      rw [hbp] at hf
      exact absurd hf (by decide)
    | some p =>
      rw [hbp] at hf hne
      simp only [Option.getD_some] at hf hne
      rw [hpr p hbp hne] at hf
      exact absurd hf (by simp)
  rw [if_neg hcond2, if_pos rfl]

/-- C3 amended: an unexpected store failure during a validated create or
update is answered with HTTP 400 (`Failed to create task`,
`Failed to update task`), during a delete with HTTP 500
(`Failed to delete task`); the store is unchanged and all three are
distinct from the 404 `Task not found` outcome. -/
theorem claim_persistence_amended :
    (∀ (store : List TaskRecord) (newId : String) (now : Int) (b : Body)
       (d : ValidatedData), validateTask b = .ok d →
       postRoute true store newId now b =
         (.error ⟨400, "Failed to create task", none, none, none⟩, store)) ∧
    (∀ (store : List TaskRecord) (id : String) (b : Body) (d : ValidatedData),
       validateTask b = .ok d → id ≠ "" →
       patchRoute true store id b =
         (.error ⟨400, "Failed to update task", none, none, none⟩, store)) ∧
    (∀ (store : List TaskRecord) (id : String), id ≠ "" →
       deleteRoute true store id =
         (.error ⟨500, "Failed to delete task", none, none, none⟩, store)) ∧
    (400 : Nat) ≠ 404 ∧ (500 : Nat) ≠ 404 ∧ (400 : Nat) ≠ 500 := by
  refine ⟨?_, ?_, ?_, by decide, by decide, by decide⟩
  · intro store newId now b d hv
    obtain ⟨t, hb, htne, hst, hpr⟩ := validateTask_inv hv
    unfold postRoute
    rw [hv]
    exact createTask_valid_fault store newId now hb htne hst hpr
  · intro store id b d hv hid
    obtain ⟨t, hb, htne, hst, hpr⟩ := validateTask_inv hv
    unfold patchRoute
    rw [hv]
    dsimp only
    rw [updateTask_valid true store hid hst, updateTaskPrio_valid true store id hpr]
    exact updateTaskStore_fault store id b
  · intro store id hid
    unfold deleteRoute deleteTask
    rw [if_neg hid, if_pos rfl]

/-- Witness for C3 amended at a concrete valid body and identifier. -/
theorem claim_persistence_amended_witness :
    postRoute true [] "id9" 0 { title := some "Buy milk" } =
      (.error ⟨400, "Failed to create task", none, none, none⟩, []) ∧
    patchRoute true [] "t9" { title := some "Buy milk" } =
      (.error ⟨400, "Failed to update task", none, none, none⟩, []) ∧
    deleteRoute true [] "t9" =
      (.error ⟨500, "Failed to delete task", none, none, none⟩, []) :=
  ⟨claim_persistence_amended.1 [] "id9" 0 { title := some "Buy milk" }
      ⟨"Buy milk", none, none, none⟩ rfl,
   claim_persistence_amended.2.1 [] "t9" { title := some "Buy milk" }
      ⟨"Buy milk", none, none, none⟩ rfl (by decide),
   claim_persistence_amended.2.2.1 [] "t9" (by decide)⟩

/-- C9 counterexample: an update whose identifier matches no stored task
but whose body carries no title is rejected 400 by the validation
middleware, not 404 `Task not found`. -/
theorem claim_notfound_counterexample :
    patchRoute false [] "missing" { status := some "DONE" } =
      (.error ⟨400, "Title is required and must be a non-empty string",
               some "title", none, none⟩, []) ∧
    (400 : Nat) ≠ 404 :=
  ⟨rfl, by decide⟩

/-- C9 amended: an update whose body passes the validation middleware and
whose identifier matches no stored task fails 404 `Task not found` with
the store unchanged; a delete with an unknown identifier likewise; and a
list request whose date-filter value is truthy, outside the enumeration,
with valid pagination and valid (or absent) status and priority filters,
fails 400 with the date-filter enumeration as `validOptions`. -/
theorem claim_notfound_amended :
    (∀ (store : List TaskRecord) (id : String) (b : Body) (d : ValidatedData),
       validateTask b = .ok d → id ≠ "" →
       store.find? (fun t => t.id == id) = none →
       patchRoute false store id b =
         (.error ⟨404, "Task not found", none, none, none⟩, store)) ∧
    (∀ (store : List TaskRecord) (id : String), id ≠ "" →
       store.find? (fun t => t.id == id) = none →
       deleteRoute false store id =
         (.error ⟨404, "Task not found", none, none, none⟩, store)) ∧
    (∀ (store : List TaskRecord) (q : Query) (f : String) (now tz : Int)
       (ws wp : Option String),
       q.dateFilter = some f → f ≠ "" → jsIncludes DATE_FILTERS_values f = false →
       ¬(q.page.getD 1 < 1 ∨ q.limit.getD 10 < 1) →
       statusWhere q = .ok ws → priorityWhere q = .ok wp →
       getTasks store q now tz =
         .error ⟨400, "Invalid date filter. Valid options: "
                        ++ jsJoin DATE_FILTERS_values ", ",
                 none, some (.enum DATE_FILTERS_values), none⟩) := by
  refine ⟨?_, ?_, ?_⟩
  · intro store id b d hv hid hfind
    obtain ⟨t, hb, htne, hst, hpr⟩ := validateTask_inv hv
    unfold patchRoute
    rw [hv]
    dsimp only
    rw [updateTask_valid false store hid hst, updateTaskPrio_valid false store id hpr]
    exact updateTaskStore_notfound b hfind
  · intro store id hid hfind
    unfold deleteRoute deleteTask
    rw [if_neg hid, if_neg (by simp), hfind]
  · intro store q f now tz ws wp hqf hfne hfmem hpag hsw hpw
    have hdw : dateWhere q now tz =
        .error ⟨400, "Invalid date filter. Valid options: "
                       ++ jsJoin DATE_FILTERS_values ", ",
                none, some (.enum DATE_FILTERS_values), none⟩ := by
      unfold dateWhere
      rw [hqf]
      dsimp only
      rw [if_neg hfne, if_neg (by simp [hfmem])]
    have hbw : buildWhere q now tz =
        .error ⟨400, "Invalid date filter. Valid options: "
                       ++ jsJoin DATE_FILTERS_values ", ",
                none, some (.enum DATE_FILTERS_values), none⟩ := by
      unfold buildWhere
      rw [hsw, hpw, hdw]
    unfold getTasks
    rw [if_neg hpag, hbw]

/-- Witness for C9 amended at concrete inputs: unknown identifier with a
valid body, unknown identifier for delete, and the date filter value
`yesterday`. -/
theorem claim_notfound_amended_witness :
    patchRoute false [] "missing" { title := some "Fix bug" } =
      (.error ⟨404, "Task not found", none, none, none⟩, []) ∧
    deleteRoute false [] "missing" =
      (.error ⟨404, "Task not found", none, none, none⟩, []) ∧
    getTasks [] { dateFilter := some "yesterday" } 0 0 =
      .error ⟨400, "Invalid date filter. Valid options: "
                     ++ jsJoin DATE_FILTERS_values ", ",
              none, some (.enum DATE_FILTERS_values), none⟩ :=
  ⟨claim_notfound_amended.1 [] "missing" { title := some "Fix bug" }
      ⟨"Fix bug", none, none, none⟩ rfl (by decide) rfl,
   claim_notfound_amended.2.1 [] "missing" (by decide) rfl,
   claim_notfound_amended.2.2 [] { dateFilter := some "yesterday" } "yesterday" 0 0
      none none rfl (by decide) (by decide) (by decide) rfl rfl⟩

theorem updateTaskStore_titles {fault : Bool} {store : List TaskRecord}
    {id : String} {b : Body}
    (hb : ∀ t, b.title = some t → jsTrim t ≠ "")
    (hinv : ∀ u ∈ store, blank u.title = false) :
    ∀ u ∈ (updateTaskStore fault store id b).2, blank u.title = false := by
  intro u hu
  unfold updateTaskStore at hu
  by_cases hf : fault = true
  · rw [if_pos hf] at hu
    exact hinv u hu
  · rw [if_neg hf] at hu
    cases hfind : store.find? (fun t => t.id == id) with
    | none =>
      rw [hfind] at hu
      dsimp only at hu
      exact hinv u hu
    | some t0 =>
      rw [hfind] at hu
      dsimp only at hu
      rw [List.mem_map] at hu
      obtain ⟨v, hv, hvu⟩ := hu
      by_cases hveq : (v.id == id) = true
      · rw [if_pos hveq] at hvu
        subst hvu
        cases hbt : b.title with
        | none =>
          exact hinv t0 (List.mem_of_find?_eq_some hfind)
        | some t =>
          by_cases hte : t = ""
          · have := hb t hbt
            rw [hte] at this
            exact absurd rfl this
          · dsimp only
            rw [if_neg hte]
            exact not_blank_of_jsTrim_ne_empty (hb t hbt)
      · rw [if_neg hveq] at hvu
        subst hvu
        exact hinv v hv

theorem updateTaskPrio_titles {fault : Bool} {store : List TaskRecord}
    {id : String} {b : Body}
    (hb : ∀ t, b.title = some t → jsTrim t ≠ "")
    (hinv : ∀ u ∈ store, blank u.title = false) :
    ∀ u ∈ (updateTaskPrio fault store id b).2, blank u.title = false := by
  intro u hu
  unfold updateTaskPrio at hu
  cases hbp : b.priority with
  | none =>
    rw [hbp] at hu
    dsimp only at hu
    exact updateTaskStore_titles hb hinv u hu
  | some p =>
    rw [hbp] at hu
    dsimp only at hu
    by_cases hc : p ≠ "" ∧ jsIncludes PRIORITY_values p = false
    · rw [if_pos hc] at hu
      exact hinv u hu
    · rw [if_neg hc] at hu
      exact updateTaskStore_titles hb hinv u hu

/-- C6: a create or update request whose title is present but blank
(empty or whitespace-only) is rejected by both routes with the 400
title-field error and an unchanged store, and every store whose titles
are all non-blank keeps that invariant across the create, update and
delete routes, so a blank title is never stored. -/
theorem claim_blank_title :
    (∀ (b : Body) (t : String), b.title = some t → blank t = true →
       validateTask b = .error ⟨400, "Title is required and must be a non-empty string",
                                some "title", none, none⟩ ∧
       (∀ (fault : Bool) (store : List TaskRecord) (newId : String) (now : Int),
          postRoute fault store newId now b =
            (.error ⟨400, "Title is required and must be a non-empty string",
                     some "title", none, none⟩, store)) ∧
       (∀ (fault : Bool) (store : List TaskRecord) (id : String),
          patchRoute fault store id b =
            (.error ⟨400, "Title is required and must be a non-empty string",
                     some "title", none, none⟩, store))) ∧
    (∀ (fault : Bool) (store : List TaskRecord) (newId : String) (now : Int) (b : Body),
       (∀ u ∈ store, blank u.title = false) →
       ∀ u ∈ (postRoute fault store newId now b).2, blank u.title = false) ∧
    (∀ (fault : Bool) (store : List TaskRecord) (id : String) (b : Body),
       (∀ u ∈ store, blank u.title = false) →
       ∀ u ∈ (patchRoute fault store id b).2, blank u.title = false) ∧
    (∀ (fault : Bool) (store : List TaskRecord) (id : String),
       (∀ u ∈ store, blank u.title = false) →
       ∀ u ∈ (deleteRoute fault store id).2, blank u.title = false) := by
  refine ⟨?_, ?_, ?_, ?_⟩
  · intro b t hbt hblank
    have htr : jsTrim t = "" := (jsTrim_eq_empty_iff t).mpr hblank
    have hv : validateTask b =
        .error ⟨400, "Title is required and must be a non-empty string",
                some "title", none, none⟩ := by
      unfold validateTask
      rw [hbt]
      dsimp only
      rw [if_pos htr]
    refine ⟨hv, ?_, ?_⟩
    · intro fault store newId now
      unfold postRoute
      rw [hv]
    · intro fault store id
      unfold patchRoute
      rw [hv]
  · intro fault store newId now b hinv u hu
    unfold postRoute at hu
    cases hv : validateTask b with
    | error e =>
      rw [hv] at hu
      exact hinv u hu
    | ok d =>
      rw [hv] at hu
      dsimp only at hu
      obtain ⟨t, hb, htne, -, -⟩ := validateTask_inv hv
      unfold createTask at hu
      rw [hb] at hu
      dsimp only at hu
      rw [if_neg htne] at hu
      by_cases h1 : b.status.getD "TODO" ≠ "" ∧
          jsIncludes STATUS_values (b.status.getD "TODO") = false
      · rw [if_pos h1] at hu
        exact hinv u hu
      · rw [if_neg h1] at hu
        by_cases h2 : b.priority.getD "medium" ≠ "" ∧
            jsIncludes PRIORITY_values (b.priority.getD "medium") = false
        · rw [if_pos h2] at hu
          exact hinv u hu
        · rw [if_neg h2] at hu
          by_cases h3 : fault = true
          · rw [if_pos h3] at hu
            exact hinv u hu
          · rw [if_neg h3] at hu
            dsimp only at hu
            rw [List.mem_append] at hu
            rcases hu with hu | hu
            · exact hinv u hu
            · rw [List.mem_singleton] at hu
              subst hu
              dsimp only
              exact not_blank_of_jsTrim_ne_empty htne
  · intro fault store id b hinv u hu
    unfold patchRoute at hu
    cases hv : validateTask b with
    | error e =>
      rw [hv] at hu
      exact hinv u hu
    | ok d =>
      rw [hv] at hu
      dsimp only at hu
      obtain ⟨t, hb, htne, -, -⟩ := validateTask_inv hv
      have hbtitles : ∀ t2, b.title = some t2 → jsTrim t2 ≠ "" := by
        intro t2 ht2
        rw [hb] at ht2
        injection ht2 with ht2
        subst ht2
        exact htne
      unfold updateTask at hu
      by_cases hid : id = ""
      · rw [if_pos hid] at hu
        exact hinv u hu
      · rw [if_neg hid] at hu
        cases hbs : b.status with
        | none =>
          rw [hbs] at hu
          dsimp only at hu
          exact updateTaskPrio_titles hbtitles hinv u hu
        | some s =>
          rw [hbs] at hu
          dsimp only at hu
          by_cases hc : s ≠ "" ∧ jsIncludes STATUS_values s = false
          · rw [if_pos hc] at hu
            exact hinv u hu
          · rw [if_neg hc] at hu
            exact updateTaskPrio_titles hbtitles hinv u hu
  · intro fault store id hinv u hu
    unfold deleteRoute deleteTask at hu
    by_cases hid : id = ""
    · rw [if_pos hid] at hu
      exact hinv u hu
    · rw [if_neg hid] at hu
      by_cases hf : fault = true
      · rw [if_pos hf] at hu
        exact hinv u hu
      · rw [if_neg hf] at hu
        cases hfind : store.find? (fun t => t.id == id) with
        | none =>
          rw [hfind] at hu
          dsimp only at hu
          exact hinv u hu
        | some t0 =>
          rw [hfind] at hu
          dsimp only at hu
          exact hinv u (List.mem_filter.mp hu).1

/-- Witness for C6 at a whitespace-only title and an empty store. -/
theorem claim_blank_title_witness :
    validateTask { title := some "   " } =
      .error ⟨400, "Title is required and must be a non-empty string",
              some "title", none, none⟩ ∧
    (∀ u ∈ (postRoute false [] "id1" 0 { title := some "   " }).2,
       blank u.title = false) :=
  ⟨(claim_blank_title.1 { title := some "   " } "   " rfl (by decide)).1,
   claim_blank_title.2.1 false [] "id1" 0 { title := some "   " }
     (by intro u hu; simp at hu)⟩
